import Mathlib

/-!
Shallow embedding of the kcz17/dimmer request-dimming reverse proxy.

Conventions of the embedding:
* Go `float64` values are modelled as rationals (`ℚ`); comparisons against
  `Real.sqrt` (from `math.Sqrt`) are carried out in `ℝ`.
* Go strings are modelled as `List Char`; `strings.Contains` is modelled by
  an explicit substring search (`stringsContains`).
* Go maps are modelled as functions with the zero-value default of Go maps
  (`false` for `map[string]bool`, `[]` for `map[string][]string`,
  `Option` for maps queried with the comma-ok idiom).
* Randomness (`rand.Float64()` draws) is passed in explicitly as input,
  with range hypotheses `0 ≤ r < 1` where the claims need them.
* Fallible Go methods that mutate a receiver are modelled as functions
  returning the new state together with an `Option String` error.
-/

namespace Dimmer

/-- Go strings modelled as lists of characters. -/
abbrev Str := List Char

/-- Helper for `stringsContains`: does `s` start with `sub`? -/
def strStartsWith : Str → Str → Bool
  | _, [] => true
  | [], _ :: _ => false
  | c :: s, d :: sub => c = d && strStartsWith s sub

/-- Go `strings.Contains(s, sub)`: `sub` occurs as a contiguous substring of `s`. -/
def stringsContains : Str → Str → Bool
  | s, sub =>
    if strStartsWith s sub then true
    else
      match s with
      | [] => false
      | _ :: t => stringsContains t sub

/-- Go `prependLeadingSlashIfMissing` (src/request_filter.go): prepend a
leading slash when the path is empty or does not already start with one. -/
def prependLeadingSlashIfMissing (path : Str) : Str :=
  match path with
  | [] => ['/']
  | c :: t => if c = '/' then c :: t else '/' :: c :: t

/-! ## Request filter (src/filters/request_filter.go) -/

/-- Go `toRequestFilterRule(path, method)` = `method + " " + path`. -/
def toRequestFilterRule (path method : Str) : Str :=
  method ++ [' '] ++ path

/-- `RequestFilter` state: the `rules` set (`map[RequestFilterRule]bool`,
absent keys read as `false`) and the `refererExclusions` map
(`map[RequestFilterRule][]string`, absent keys read as `[]`). -/
structure RequestFilter where
  rules : Str → Bool
  refererExclusions : Str → List Str

/-- Go `NewRequestFilter()`: empty rule set, no exclusions. -/
def NewRequestFilter : RequestFilter :=
  { rules := fun _ => false, refererExclusions := fun _ => [] }

/-- Go `RequestFilter.Matches(path, method, referer)`. -/
def RequestFilter.Matches (r : RequestFilter) (path method referer : Str) : Bool :=
  let rule := toRequestFilterRule path method
  if !(r.rules rule) then false
  else if (r.refererExclusions rule).any (fun substring => stringsContains referer substring) then
    false
  else true

/-- Go `RequestFilter.AddPath(path, method)`: insert the rule both with and
without the leading slash. -/
def RequestFilter.AddPath (r : RequestFilter) (path method : Str) : RequestFilter :=
  let p := prependLeadingSlashIfMissing path
  { r with
    rules := fun k =>
      if k = toRequestFilterRule p method then true
      else if k = toRequestFilterRule p.tail method then true
      else r.rules k }

/-- Go `RequestFilter.AddRefererExclusion(path, method, substring)`: fails
(without mutating) when no rule exists; otherwise appends the substring to the
exclusion lists of both slash variants of the rule. -/
def RequestFilter.AddRefererExclusion (r : RequestFilter) (path method substring : Str) :
    Except String RequestFilter :=
  let p := prependLeadingSlashIfMissing path
  let rule := toRequestFilterRule p method
  let ruleWithoutPrependingSlash := toRequestFilterRule p.tail method
  if !(r.rules rule) then
    Except.error "AddRefererExclusion() expected rules contains rule; none found"
  else
    Except.ok
      { r with
        refererExclusions := fun k =>
          if k = rule then r.refererExclusions rule ++ [substring]
          else if k = ruleWithoutPrependingSlash then
            r.refererExclusions ruleWithoutPrependingSlash ++ [substring]
          else r.refererExclusions k }

/-- Construction steps for a filter: the two mutating operations of the API. -/
inductive FilterOp
  | addPath (path method : Str)
  | addRefererExclusion (path method substring : Str)

/-- Apply one operation; a failed `AddRefererExclusion` leaves the state
unchanged (the Go method returns before mutating). -/
def applyFilterOp (r : RequestFilter) : FilterOp → RequestFilter
  | FilterOp.addPath path method => r.AddPath path method
  | FilterOp.addRefererExclusion path method substring =>
    match r.AddRefererExclusion path method substring with
    | Except.ok r2 => r2
    | Except.error _ => r

/-- A filter state built by a sequence of `AddPath` / `AddRefererExclusion`
calls starting from `NewRequestFilter`. -/
def buildFilter (ops : List FilterOp) : RequestFilter :=
  ops.foldl applyFilterOp NewRequestFilter

/-! ## Path probabilities (src/unnamed/part_021, package filters) -/

/-- `PathProbabilities` state: the `probabilities` map (queried with the
comma-ok idiom, hence `Option`) and the `defaultValue` for absent keys. -/
structure PathProbabilities where
  probabilities : Str → Option ℚ
  defaultValue : ℚ

/-- Go `PathProbabilityRule`. -/
structure PathProbabilityRule where
  Path : Str
  Probability : ℚ

/-- Go `NewPathProbabilities(defaultValue)`: rejects a default outside [0,1]. -/
def NewPathProbabilities (defaultValue : ℚ) : Except String PathProbabilities :=
  if defaultValue < 0 ∨ defaultValue > 1 then
    Except.error "NewPathProbabilities() expected defaultValue between 0 and 1"
  else
    Except.ok { probabilities := fun _ => none, defaultValue := defaultValue }

/-- Go `PathProbabilities.Get(path)`: stored value, or the default when absent. -/
def PathProbabilities.Get (p : PathProbabilities) (path : Str) : ℚ :=
  match p.probabilities path with
  | none => p.defaultValue
  | some probability => probability

/-- Go `PathProbabilities.Set(rule)`: rejects probabilities outside [0,1]
without mutating; otherwise stores the probability under both the
leading-slash and slash-less forms of the path.  The pair returned is the
resulting receiver state together with the optional error. -/
def PathProbabilities.Set (p : PathProbabilities) (rule : PathProbabilityRule) :
    PathProbabilities × Option String :=
  if rule.Probability < 0 ∨ rule.Probability > 1 then
    (p, some "PathProbabilities.Set() expected probability between 0 and 1")
  else
    let path := prependLeadingSlashIfMissing rule.Path
    ({ p with
        probabilities := fun k =>
          if k = path then some rule.Probability
          else if k = path.tail then some rule.Probability
          else p.probabilities k },
      none)

/-- Go `PathProbabilities.SetAll(rules)`: applies `Set` in order, stopping at
the first error; mutations made before the error persist. -/
def PathProbabilities.SetAll (p : PathProbabilities) :
    List PathProbabilityRule → PathProbabilities × Option String
  | [] => (p, none)
  | rule :: rest =>
    match p.Set rule with
    | (p2, none) => p2.SetAll rest
    | (_, some e) => (p, some e)

/-- Go `PathProbabilities.Clear()`. -/
def PathProbabilities.Clear (p : PathProbabilities) : PathProbabilities :=
  { p with probabilities := fun _ => none }

/-- Go `PathProbabilities.SampleShouldDim(path)` = `rand.Float64() < p.Get(path)`,
with the random draw passed in explicitly. -/
def PathProbabilities.SampleShouldDim (p : PathProbabilities) (path : Str) (roll : ℚ) : Bool :=
  roll < p.Get path

/-! ## PID controller (src/pid/pid.go) -/

/-- Immutable `PIDController` configuration fields. -/
structure PIDParams where
  setpoint : ℚ
  kp : ℚ
  ki : ℚ
  kd : ℚ
  minOutput : ℚ
  maxOutput : ℚ
  minSampleTime : ℚ
  lowPassPole : ℚ

/-- Mutable `PIDController` state.  `lastTick` is `none` for the zero
`time.Time` instant; otherwise `some` of the tick time in seconds. -/
structure PIDState where
  lastTick : Option ℚ
  lastInput : ℚ
  lastOutput : ℚ
  integral : ℚ
  DebugP : ℚ
  DebugI : ℚ
  DebugD : ℚ
  DebugErr : ℚ

/-- The freshly constructed controller state (all fields zero). -/
def initialPIDState : PIDState :=
  { lastTick := none, lastInput := 0, lastOutput := 0, integral := 0,
    DebugP := 0, DebugI := 0, DebugD := 0, DebugErr := 0 }

/-- Go `NewPIDController`: validates `kp, ki, kd ≥ 0` and negates the gains
when `isReversed`; `lowPassPole` is fixed at 0.9. -/
def NewPIDController (setpoint kp ki kd : ℚ) (isReversed : Bool)
    (minOutput maxOutput minSampleTime : ℚ) : Except String PIDParams :=
  if kp < 0 ∨ ki < 0 ∨ kd < 0 then
    Except.error "expected positive controller parameters; got negative (toggle isReversed instead)"
  else
    Except.ok
      { setpoint := setpoint,
        kp := if isReversed then -kp else kp,
        ki := if isReversed then -ki else ki,
        kd := if isReversed then -kd else kd,
        lowPassPole := 0.9,
        minOutput := minOutput,
        maxOutput := maxOutput,
        minSampleTime := minSampleTime }

/-- The body of `PIDController.Output` past the minimum-sample-time gate:
low-pass filter, PID terms, clamping, anti-windup, state persistence. -/
def pidCompute (c : PIDParams) (s : PIDState) (now input elapsed : ℚ) : ℚ × PIDState :=
  let input2 := c.lowPassPole * s.lastInput + (1 - c.lowPassPole) * input
  let errorTerm := c.setpoint - input2
  let p := c.kp * errorTerm
  let integral2 := s.integral + c.ki * errorTerm * elapsed
  let d := if elapsed ≠ 0 then c.kd * -((input2 - s.lastInput) / elapsed) else 0
  let raw := p + integral2 + d
  let output := if raw > c.maxOutput then c.maxOutput
    else if raw < c.minOutput then c.minOutput
    else raw
  (output,
    { lastTick := some now,
      lastInput := input2,
      lastOutput := output,
      integral := output - d - p,
      DebugP := p,
      DebugI := integral2,
      DebugD := d,
      DebugErr := errorTerm })

/-- Go `PIDController.Output(input)` with the clock read passed in as `now`.
Returns the output together with the controller state after the call. -/
def pidOutput (c : PIDParams) (s : PIDState) (now input : ℚ) : ℚ × PIDState :=
  match s.lastTick with
  | some t0 =>
    let elapsed := now - t0
    if elapsed < c.minSampleTime then (s.lastOutput, s)
    else pidCompute c s now input elapsed
  | none => pidCompute c s now input 0

/-- Go `PIDController.Reset()`. -/
def pidReset (_ : PIDState) : PIDState := initialPIDState

/-- Run a sequence of `(now, input)` calls through `Output`, returning the
final state and the list of outputs in call order. -/
def runPID (c : PIDParams) : PIDState → List (ℚ × ℚ) → PIDState × List ℚ
  | s, [] => (s, [])
  | s, (now, input) :: rest =>
    let r := pidOutput c s now input
    let rec2 := runPID c r.2 rest
    (rec2.1, r.1 :: rec2.2)

/-! ## Kolmogorov–Smirnov test (src/stats/dist.go) -/

/-- The `Percentile` enumeration of supported confidence levels. -/
inductive Percentile
  | P90
  | P95
  | P97d5
  | P99
  | P99d5
  | P99d9
deriving DecidableEq

/-- The KS-coefficient table (`coefficients` in src/stats/dist.go). -/
def coefficients : Percentile → ℚ
  | Percentile.P90 => 1.22
  | Percentile.P95 => 1.36
  | Percentile.P97d5 => 1.48
  | Percentile.P99 => 1.63
  | Percentile.P99d5 => 1.73
  | Percentile.P99d9 => 1.95

/-- Binary maximum on `ℚ`, written with an explicit comparison. -/
def maxQ (a b : ℚ) : ℚ :=
  if a ≤ b then b else a

/-- Absolute value on `ℚ`, written with an explicit comparison. -/
def absQ (q : ℚ) : ℚ :=
  if q < 0 then -q else q

/-- Maximum of a list of rationals with 0 as the neutral base (all the
values of interest are absolute differences, hence non-negative). -/
def listMax (l : List ℚ) : ℚ :=
  l.foldr maxQ 0

/-- Empirical CDF of a sample at point `x`: the fraction of sample values
that are `≤ x`. -/
def empiricalCDF (sample : List ℚ) (x : ℚ) : ℚ :=
  (sample.countP (fun a => decide (a ≤ x)) : ℚ) / (sample.length : ℚ)

/-- Modelled from the spec: the test statistic computed by the external
`gonum` `stat.KolmogorovSmirnov` call (not under src/) — "the test statistic
is the maximum absolute difference of the two empirical CDFs", taken over
the points of both samples. -/
def ksStatistic (control candidate : List ℚ) : ℚ :=
  listMax ((control ++ candidate).map
    (fun x => absQ (empiricalCDF control x - empiricalCDF candidate x)))

/-- Go `KolmogorovSmirnovTestRejection(control, candidate, percentile)`:
`statistic > coefficient · √((n₁+n₂)/(n₁·n₂))`.  The square root is `ℝ`-valued
(`math.Sqrt`), so the comparison is stated over `ℝ`. -/
def KolmogorovSmirnovTestRejection (control candidate : List ℚ) (percentile : Percentile) : Prop :=
  ((ksStatistic control candidate : ℚ) : ℝ) >
    ((coefficients percentile : ℚ) : ℝ) *
      Real.sqrt (((control.length : ℝ) + (candidate.length : ℝ)) /
        ((control.length : ℝ) * (candidate.length : ℝ)))

/-! ## Response-time aggregation (src/responsetimecollector/array_collector.go,
src/unnamed/part_017 ServerControlLoop) -/

/-- `Aggregation` of percentiles; fields are `time.Duration` values, modelled
as rationals counted in nanoseconds. -/
structure Aggregation where
  P50 : ℚ
  P75 : ℚ
  P95 : ℚ
deriving DecidableEq

/-- Nanoseconds per second (`float64(time.Second)`). -/
def nanosPerSecond : ℚ := 1000000000

/-- Go `arrayCollector.Aggregate()`: with zero samples it returns the zero
aggregation; otherwise it computes p50/p75/p95 through the external
`montanaflynn/stats` library (not under src/), which is abstracted here as
the `statsMedian` / `statsPercentile` parameters, and converts seconds to
`time.Duration` nanoseconds.  `samples` is the collector's
`responseTimesSeconds` slice. -/
def arrayCollectorAggregate (statsMedian : List ℚ → ℚ) (statsPercentile : List ℚ → ℚ → ℚ)
    (samples : List ℚ) : Aggregation :=
  if samples.length = 0 then { P50 := 0, P75 := 0, P95 := 0 }
  else
    { P50 := statsMedian samples * nanosPerSecond,
      P75 := statsPercentile samples 75 * nanosPerSecond,
      P95 := statsPercentile samples 95 * nanosPerSecond }

/-- Go `arrayCollector.Reset()`: the samples slice becomes empty. -/
def arrayCollectorReset (_ : List ℚ) : List ℚ := []

/-- One `ServerControlLoop.controlLoop()` tick's input to the PID controller:
the aggregation is converted to seconds and the configured percentile is
selected; an unknown percentile panics (modelled as `none`). -/
def controlLoopPIDInput (responseTimePercentile : Str) (aggregation : Aggregation) : Option ℚ :=
  let p50 := aggregation.P50 / nanosPerSecond
  let p75 := aggregation.P75 / nanosPerSecond
  let p95 := aggregation.P95 / nanosPerSecond
  if responseTimePercentile = "p50".toList then some p50
  else if responseTimePercentile = "p75".toList then some p75
  else if responseTimePercentile = "p95".toList then some p95
  else none

/-! ## Online trainer evaluation (src/unnamed/part_002, package onlinetraining) -/

/-- Go `OnlineTraining.checkCandidateImprovesResponseTimes()`, with the two
collectors' observable data passed in: the P95 aggregates converted to
seconds (`controlP95`, `candidateP95`) and the `All()` sample lists fed to
the KS test.  Mirrors the source's early returns: require
`candidateP95 > 0.05`; return false when `0.85·controlP95 ≤ candidateP95`;
otherwise return the KS rejection at `P99d5`. -/
def checkCandidateImprovesResponseTimes (controlP95 candidateP95 : ℚ)
    (controlAll candidateAll : List ℚ) : Prop :=
  if candidateP95 > 0.05 then
    if 0.85 * controlP95 ≤ candidateP95 then False
    else KolmogorovSmirnovTestRejection controlAll candidateAll Percentile.P99d5
  else False

/-- The promotion step at the end of one `trainingLoop` iteration
(src/unnamed/part_002 lines 144–159): when `comparison` (the result of
`checkCandidateImprovesResponseTimes`) is true, the candidate rules are
copied into the live (control) path probabilities via `SetAll`; otherwise
the live probabilities are left unchanged. -/
def trainingLoopPromotionStep (controlPathProbabilities : PathProbabilities)
    (newCandidateRules : List PathProbabilityRule) (comparison : Bool) : PathProbabilities :=
  if comparison then (controlPathProbabilities.SetAll newCandidateRules).1
  else controlPathProbabilities

/-! ## Profiler (src/unnamed/part_005, package profiling) -/

/-- The configurable probability fields of the `Profiler` struct
(src/unnamed/part_005; this is the revision consistent with the
multiplier-carrying configuration in src/config/config.go). -/
structure ProfilerProbabilities where
  LowPriorityDimmingProbability : ℚ
  LowPriorityDimmingProbabilityMultiplier : ℚ
  HighPriorityDimmingProbability : ℚ
  HighPriorityDimmingProbabilityMultiplier : ℚ

/-- Go `Profiler.DimmingDecisionProbabilityForPriorityCookie(request)`:
`lowVisits`/`highVisits` are the aggregator's counter reads
(`GetLowPriorityVisits`/`GetHighPriorityVisits`, `int32` values) and
`priorityCookie` is the raw value of the `PRIORITY` request cookie. -/
def DimmingDecisionProbabilityForPriorityCookie (p : ProfilerProbabilities)
    (lowVisits highVisits : ℤ) (priorityCookie : Str) : ℚ :=
  let numLow : ℚ := (lowVisits : ℚ)
  let numHigh : ℚ := (highVisits : ℚ)
  let expectation := p.LowPriorityDimmingProbability * (numLow + 1) +
    p.HighPriorityDimmingProbability * (numHigh + 1)
  if priorityCookie = "low".toList then
    p.LowPriorityDimmingProbabilityMultiplier * p.LowPriorityDimmingProbability *
      (numLow / expectation)
  else if priorityCookie = "high".toList then
    p.HighPriorityDimmingProbabilityMultiplier * p.HighPriorityDimmingProbability *
      (numHigh / expectation)
  else 0

/-- The per-priority dimming probability exactly as the specification words
it (spec §4.10): `expectation = pLow·(lowVisits+1) + pHigh·(highVisits+1)`;
`mLow·pLow·(lowVisits/expectation)` for a low-priority cookie,
`mHigh·pHigh·(highVisits/expectation)` for a high-priority cookie, and 0 for
any other cookie value. -/
def specDimmingDecisionProbability (p : ProfilerProbabilities)
    (lowVisits highVisits : ℤ) (priorityCookie : Str) : ℚ :=
  let expectation := p.LowPriorityDimmingProbability * ((lowVisits : ℚ) + 1) +
    p.HighPriorityDimmingProbability * ((highVisits : ℚ) + 1)
  if priorityCookie = "low".toList then
    p.LowPriorityDimmingProbabilityMultiplier *
      (p.LowPriorityDimmingProbability * ((lowVisits : ℚ) / expectation))
  else if priorityCookie = "high".toList then
    p.HighPriorityDimmingProbabilityMultiplier *
      (p.HighPriorityDimmingProbability * ((highVisits : ℚ) / expectation))
  else 0

/-! ## Request handler (src/server.go) -/

/-- The `DimmingMode` enumeration. -/
inductive DimmingMode
  | Disabled
  | OfflineTraining
  | Dimming
  | DimmingWithProfiling
  | DimmingWithOnlineTraining
deriving DecidableEq

/-- Result of one request through `Server.requestHandler()`: either the shed
response (with status code and body) or forwarding to the backend proxy. -/
inductive HandlerResult
  | shed (status : ℕ) (body : String)
  | forwarded
deriving DecidableEq

/-- The server fields read by the shed decision in `requestHandler()`. -/
structure ServerState where
  dimmingMode : DimmingMode
  requestFilter : RequestFilter
  pathProbabilities : PathProbabilities
  candidatePathProbabilities : PathProbabilities
  /-- `ControlLoop.readDimmingPercentage()` at the time of the request. -/
  dimmingPercentage : ℚ
  isProfilingEnabled : Bool

/-- The request fields read by the shed decision: path, method, the
`Referer` header, and the cookies.  A cookie is its raw string value, `[]`
meaning absent (Go's `len(...) != 0` presence checks). -/
structure RequestInfo where
  path : Str
  method : Str
  referer : Str
  profilingSessionCookie : Str
  dimmingDecisionCookie : Str
  priorityCookie : Str
  onlineTrainingCookie : Str

/-- The random draws made while handling one request, passed in explicitly:
the `rand.Float64()` of the baseline roll, the result of
`profiling.SampleDimmingForPriorityCookie` (a Boolean sample; its definition
is not under src/), and the `rand.Float64()` inside `SampleShouldDim`. -/
structure HandlerDraws where
  baselineRoll : ℚ
  priorityDimmingSample : Bool
  pathProbabilityRoll : ℚ

/-- Go `profiling.HasDimmingDecisionCookie(req)`. -/
def HasDimmingDecisionCookie (req : RequestInfo) : Bool :=
  req.dimmingDecisionCookie ≠ []

/-- Go `profiling.ReadDimmingDecisionCookie(req)`. -/
def ReadDimmingDecisionCookie (req : RequestInfo) : Bool :=
  req.dimmingDecisionCookie = "true".toList

/-- Go `profiling.RequestHasPriorityCookie(req)`. -/
def RequestHasPriorityCookie (req : RequestInfo) : Bool :=
  req.priorityCookie ≠ []

/-- Go `onlinetraining.RequestHasCandidateCookie(req)`. -/
def RequestHasCandidateCookie (req : RequestInfo) : Bool :=
  req.onlineTrainingCookie = "CANDIDATE".toList

/-- The shed/forward decision of `Server.requestHandler()` (src/server.go
lines 202–275), up to the point where the request is either answered with
`429 "Dimming!"` or forwarded to the backend proxy. -/
def requestHandler (s : ServerState) (req : RequestInfo) (draws : HandlerDraws) : HandlerResult :=
  let isDimmingEnabled : Bool := s.dimmingMode ≠ DimmingMode.Disabled
  let isDimmableRequest : Bool := s.requestFilter.Matches req.path req.method req.referer
  if isDimmingEnabled && isDimmableRequest then
    let shouldDim0 : Bool :=
      (s.dimmingMode = DimmingMode.OfflineTraining) ||
        decide (draws.baselineRoll * 100 < s.dimmingPercentage)
    -- Profiling override: yields the updated (shouldDim, skipPathProbabilities).
    let afterProfiling : Bool × Bool :=
      if s.isProfilingEnabled && (s.dimmingMode = DimmingMode.DimmingWithProfiling) &&
          (req.profilingSessionCookie ≠ []) then
        if HasDimmingDecisionCookie req then
          (ReadDimmingDecisionCookie req, true)
        else if RequestHasPriorityCookie req then
          let dimmingDecision := shouldDim0 && draws.priorityDimmingSample
          (shouldDim0 || dimmingDecision, dimmingDecision)
        else (shouldDim0, false)
      else (shouldDim0, false)
    let shouldDim1 := afterProfiling.1
    let skipPathProbabilities := afterProfiling.2
    let shouldDim2 :=
      if !skipPathProbabilities then
        let shouldUseOnlineTrainingCandidateGroupProbabilities : Bool :=
          (s.dimmingMode = DimmingMode.DimmingWithOnlineTraining) &&
            RequestHasCandidateCookie req
        if shouldUseOnlineTrainingCandidateGroupProbabilities then
          shouldDim1 && s.candidatePathProbabilities.SampleShouldDim req.path
            draws.pathProbabilityRoll
        else
          shouldDim1 && s.pathProbabilities.SampleShouldDim req.path draws.pathProbabilityRoll
      else shouldDim1
    if shouldDim2 then HandlerResult.shed 429 "Dimming!" else HandlerResult.forwarded
  else HandlerResult.forwarded

/-! ## Auxiliary definitions used by the theorems -/

/-- A `PathProbabilities` value holding no entries (the map of a freshly
constructed `PathProbabilities` with the given default). -/
def emptyPathProbabilities (defaultValue : ℚ) : PathProbabilities :=
  { probabilities := fun _ => none, defaultValue := defaultValue }

/-- Apply a sequence of `Set` calls to a `PathProbabilities` value, keeping
the receiver state of each call (failed calls leave the state unchanged). -/
def applySets (p : PathProbabilities) : List PathProbabilityRule → PathProbabilities
  | [] => p
  | rule :: rest => applySets (p.Set rule).1 rest

lemma prepend_ne_nil (l : Str) : prependLeadingSlashIfMissing l ≠ [] := by
  cases l with
  | nil => simp [prependLeadingSlashIfMissing]
  | cons c t =>
    simp only [prependLeadingSlashIfMissing]
    split <;> simp

lemma tail_ne_self {l : Str} (h : l ≠ []) : l.tail ≠ l := by
  intro he
  cases l with
  | nil => exact h rfl
  | cons c t =>
    have hlen := congrArg List.length he
    simp at hlen

lemma set_defaultValue (p : PathProbabilities) (rule : PathProbabilityRule) :
    ((p.Set rule).1).defaultValue = p.defaultValue := by
  unfold PathProbabilities.Set
  split <;> rfl

lemma applySets_defaultValue (rules : List PathProbabilityRule) (p : PathProbabilities) :
    (applySets p rules).defaultValue = p.defaultValue := by
  induction rules generalizing p with
  | nil => rfl
  | cons rule rest ih => rw [applySets, ih, set_defaultValue]

lemma set_untouched (p : PathProbabilities) (rule : PathProbabilityRule) (path : Str)
    (h1 : path ≠ prependLeadingSlashIfMissing rule.Path)
    (h2 : path ≠ (prependLeadingSlashIfMissing rule.Path).tail) :
    ((p.Set rule).1).probabilities path = p.probabilities path := by
  unfold PathProbabilities.Set
  split
  · rfl
  · simp [h1, h2]

lemma applySets_untouched (rules : List PathProbabilityRule) (p : PathProbabilities) (path : Str)
    (h : ∀ r ∈ rules, path ≠ prependLeadingSlashIfMissing r.Path ∧
      path ≠ (prependLeadingSlashIfMissing r.Path).tail) :
    (applySets p rules).probabilities path = p.probabilities path := by
  induction rules generalizing p with
  | nil => rfl
  | cons rule rest ih =>
    have hr := h rule (by simp)
    rw [applySets, ih _ (fun r hmem => h r (by simp [hmem])),
      set_untouched p rule path hr.1 hr.2]

/-- C7: `PathProbabilities.Set` rejects any probability outside [0,1] and
leaves the map unchanged in that case; any probability in [0,1] is stored
under both the leading-slash and slash-less forms of the path; `Get` of a
path never inserted returns the default value. -/
theorem pathProbabilities_set_get_spec :
    (∀ (p : PathProbabilities) (rule : PathProbabilityRule),
      rule.Probability < 0 ∨ rule.Probability > 1 →
        (p.Set rule).1 = p ∧ ((p.Set rule).2).isSome = true) ∧
    (∀ (p : PathProbabilities) (rule : PathProbabilityRule),
      0 ≤ rule.Probability → rule.Probability ≤ 1 →
        ((p.Set rule).2 = none ∧
          ((p.Set rule).1).Get (prependLeadingSlashIfMissing rule.Path) = rule.Probability ∧
          ((p.Set rule).1).Get ((prependLeadingSlashIfMissing rule.Path).tail) =
            rule.Probability)) ∧
    (∀ (defaultValue : ℚ) (rules : List PathProbabilityRule) (path : Str),
      (∀ r ∈ rules, path ≠ prependLeadingSlashIfMissing r.Path ∧
        path ≠ (prependLeadingSlashIfMissing r.Path).tail) →
        (applySets (emptyPathProbabilities defaultValue) rules).Get path = defaultValue) := by
  refine ⟨fun p rule h => ?_, fun p rule h0 h1 => ?_, fun defaultValue rules path h => ?_⟩
  · unfold PathProbabilities.Set
    rw [if_pos h]
    exact ⟨rfl, rfl⟩
  · have hcond : ¬(rule.Probability < 0 ∨ rule.Probability > 1) := by
      push_neg
      exact ⟨h0, h1⟩
    unfold PathProbabilities.Set
    rw [if_neg hcond]
    refine ⟨rfl, ?_, ?_⟩
    · simp [PathProbabilities.Get]
    · have htail : (prependLeadingSlashIfMissing rule.Path).tail ≠
          prependLeadingSlashIfMissing rule.Path :=
        tail_ne_self (prepend_ne_nil rule.Path)
      simp [PathProbabilities.Get, htail]
  · have h2 := applySets_defaultValue rules (emptyPathProbabilities defaultValue)
    rw [PathProbabilities.Get, applySets_untouched rules _ path h]
    simpa [emptyPathProbabilities] using h2

/-- C7 witness: the three parts of `pathProbabilities_set_get_spec`
instantiated at concrete inputs. -/
theorem pathProbabilities_set_get_spec_witness :
    (((2 : ℚ) < 0 ∨ (2 : ℚ) > 1) ∧
      ((emptyPathProbabilities 0).Set ⟨"a".toList, 2⟩).1 = emptyPathProbabilities 0) ∧
    ((0 : ℚ) ≤ 1/2 ∧ (1/2 : ℚ) ≤ 1 ∧
      (((emptyPathProbabilities 0).Set ⟨"a".toList, 1/2⟩).1).Get
        (prependLeadingSlashIfMissing "a".toList) = 1/2) ∧
    ((applySets (emptyPathProbabilities (1/4)) [⟨"a".toList, 1/2⟩]).Get "b".toList = 1/4) := by
  refine ⟨⟨Or.inr (by norm_num), ?_⟩, ⟨by norm_num, by norm_num, ?_⟩, ?_⟩
  · exact (pathProbabilities_set_get_spec.1 (emptyPathProbabilities 0) ⟨"a".toList, 2⟩
      (Or.inr (by norm_num))).1
  · exact ((pathProbabilities_set_get_spec.2.1 (emptyPathProbabilities 0) ⟨"a".toList, 1/2⟩
      (by norm_num) (by norm_num)).2).1
  · exact pathProbabilities_set_get_spec.2.2 (1/4) [⟨"a".toList, 1/2⟩] "b".toList
      (by intro r hr; rw [List.mem_singleton] at hr; subst hr; constructor <;> decide)

lemma set_ok (p : PathProbabilities) (rule : PathProbabilityRule)
    (h0 : 0 ≤ rule.Probability) (h1 : rule.Probability ≤ 1) :
    (p.Set rule).2 = none := by
  unfold PathProbabilities.Set
  rw [if_neg (by push_neg; exact ⟨h0, h1⟩)]

/-- C9: `PathProbabilities.SetAll` is not atomic on error — on a rule list
whose first offending rule is `bad`, it returns an error, yet the resulting
map is exactly the map obtained by applying all the rules preceding `bad`
(which themselves applied without error); no rollback occurs. -/
theorem setAll_not_atomic (p : PathProbabilities) (good : List PathProbabilityRule)
    (bad : PathProbabilityRule) (rest : List PathProbabilityRule)
    (hgood : ∀ r ∈ good, 0 ≤ r.Probability ∧ r.Probability ≤ 1)
    (hbad : bad.Probability < 0 ∨ bad.Probability > 1) :
    ((p.SetAll (good ++ bad :: rest)).2).isSome = true ∧
    (p.SetAll (good ++ bad :: rest)).1 = (p.SetAll good).1 ∧
    (p.SetAll good).2 = none := by
  induction good generalizing p with
  | nil =>
    have hb : p.Set bad =
        (p, some "PathProbabilities.Set() expected probability between 0 and 1") := by
      unfold PathProbabilities.Set
      rw [if_pos hbad]
    refine ⟨?_, ?_, rfl⟩ <;> simp [PathProbabilities.SetAll, hb]
  | cons rule rem ih =>
    have hr := hgood rule (by simp)
    have hok := set_ok p rule hr.1 hr.2
    have ihp := ih (p.Set rule).1 (fun r hmem => hgood r (by simp [hmem]))
    rcases hs : p.Set rule with ⟨p2, err⟩
    rw [hs] at hok
    simp at hok
    subst hok
    rw [List.cons_append, PathProbabilities.SetAll, hs, PathProbabilities.SetAll, hs]
    rw [hs] at ihp
    exact ihp

/-- C9 witness: `setAll_not_atomic` at a concrete state and rule list. -/
theorem setAll_not_atomic_witness :
    ((∀ r ∈ [PathProbabilityRule.mk "a".toList (1/2)], 0 ≤ r.Probability ∧ r.Probability ≤ 1) ∧
      ((2 : ℚ) < 0 ∨ (2 : ℚ) > 1)) ∧
    (((emptyPathProbabilities 0).SetAll
        ([PathProbabilityRule.mk "a".toList (1/2)] ++ PathProbabilityRule.mk "b".toList 2 :: [])).2).isSome = true ∧
    ((emptyPathProbabilities 0).SetAll
        ([PathProbabilityRule.mk "a".toList (1/2)] ++ PathProbabilityRule.mk "b".toList 2 :: [])).1 =
      ((emptyPathProbabilities 0).SetAll [PathProbabilityRule.mk "a".toList (1/2)]).1 := by
  have h := setAll_not_atomic (emptyPathProbabilities 0)
    [PathProbabilityRule.mk "a".toList (1/2)] (PathProbabilityRule.mk "b".toList 2) []
    (by intro r hr; rw [List.mem_singleton] at hr; subst hr; constructor <;> norm_num)
    (Or.inr (by norm_num))
  exact ⟨⟨by intro r hr; rw [List.mem_singleton] at hr; subst hr; constructor <;> norm_num,
    Or.inr (by norm_num)⟩, h.1, h.2.1⟩

/-- C5: the profiler's per-priority dimming probability equals the
specification formula — `mLow·pLow·(lowVisits/expectation)` for a low
cookie, `mHigh·pHigh·(highVisits/expectation)` for a high cookie, 0 for any
other cookie value, with
`expectation = pLow·(lowVisits+1) + pHigh·(highVisits+1)`. -/
theorem profiler_dimming_probability_formula (p : ProfilerProbabilities)
    (lowVisits highVisits : ℤ) (priorityCookie : Str) :
    DimmingDecisionProbabilityForPriorityCookie p lowVisits highVisits priorityCookie =
      specDimmingDecisionProbability p lowVisits highVisits priorityCookie := by
  simp only [DimmingDecisionProbabilityForPriorityCookie, specDimmingDecisionProbability]
  split_ifs <;> ring

/-- C10: aggregating an array collector holding zero samples — including
immediately after `Reset` — yields the zero triple regardless of the
percentile library, so a control-loop tick with no recorded traffic feeds
the input 0 to the PID controller. -/
theorem arrayCollector_aggregate_empty_zero
    (statsMedian : List ℚ → ℚ) (statsPercentile : List ℚ → ℚ → ℚ)
    (samples : List ℚ) (responseTimePercentile : Str)
    (hp : responseTimePercentile = "p50".toList ∨ responseTimePercentile = "p75".toList ∨
      responseTimePercentile = "p95".toList) :
    arrayCollectorAggregate statsMedian statsPercentile [] = Aggregation.mk 0 0 0 ∧
    arrayCollectorAggregate statsMedian statsPercentile (arrayCollectorReset samples) =
      Aggregation.mk 0 0 0 ∧
    controlLoopPIDInput responseTimePercentile
      (arrayCollectorAggregate statsMedian statsPercentile []) = some 0 := by
  refine ⟨rfl, rfl, ?_⟩
  rcases hp with hp | hp | hp <;>
    simp [hp, controlLoopPIDInput, arrayCollectorAggregate]

/-- C10 witness: `arrayCollector_aggregate_empty_zero` at concrete stats
functions, samples and percentile key. -/
theorem arrayCollector_aggregate_empty_zero_witness :
    ("p95".toList = "p50".toList ∨ "p95".toList = "p75".toList ∨
      "p95".toList = "p95".toList) ∧
    arrayCollectorAggregate (fun _ => 7) (fun _ _ => 7) [] = Aggregation.mk 0 0 0 ∧
    controlLoopPIDInput "p95".toList
      (arrayCollectorAggregate (fun _ => 7) (fun _ _ => 7)
        (arrayCollectorReset [3, 4])) = some 0 := by
  have h := arrayCollector_aggregate_empty_zero (fun _ => 7) (fun _ _ => 7) [3, 4]
    "p95".toList (Or.inr (Or.inr rfl))
  exact ⟨Or.inr (Or.inr rfl), h.1, by rw [h.2.1]; exact (h.2.1 ▸ h.2.2)⟩

lemma matches_iff_general (r : RequestFilter) (path method referer : Str) :
    r.Matches path method referer = true ↔
      (r.rules (toRequestFilterRule path method) = true ∧
        ∀ substring ∈ r.refererExclusions (toRequestFilterRule path method),
          stringsContains referer substring = false) := by
  unfold RequestFilter.Matches
  cases hr : r.rules (toRequestFilterRule path method) with
  | false => simp [hr]
  | true => simp [hr]

/-- C6: for every filter state built by `AddPath` and `AddRefererExclusion`
calls, `Matches(path, method, referer)` returns true iff the rule for
`(path, method)` exists in the rule set and no exclusion substring
registered for that rule is contained in the referer. -/
theorem requestFilter_matches_iff (ops : List FilterOp) (path method referer : Str) :
    (buildFilter ops).Matches path method referer = true ↔
      ((buildFilter ops).rules (toRequestFilterRule path method) = true ∧
        ∀ substring ∈ (buildFilter ops).refererExclusions (toRequestFilterRule path method),
          stringsContains referer substring = false) :=
  matches_iff_general (buildFilter ops) path method referer

/-- C4: when a previous tick completed at `t0` and the elapsed time
`now − t0` is positive but below the minimum sample interval, `Output`
returns exactly the previous output and leaves the whole controller state
(including `lastTick`, `lastInput`, `lastOutput` and the integral term)
unchanged; when the elapsed time reaches the minimum sample interval, the
full control computation runs. -/
theorem pid_min_sample_gate (c : PIDParams) (s : PIDState) (t0 now input : ℚ)
    (htick : s.lastTick = some t0) :
    (0 < now - t0 → now - t0 < c.minSampleTime →
      pidOutput c s now input = (s.lastOutput, s)) ∧
    (c.minSampleTime ≤ now - t0 →
      pidOutput c s now input = pidCompute c s now input (now - t0)) := by
  constructor
  · intro _ hlt
    unfold pidOutput
    rw [htick]
    simp only [if_pos hlt]
  · intro hge
    unfold pidOutput
    rw [htick]
    simp only [if_neg (not_lt.mpr hge)]

/-- C4 witness: `pid_min_sample_gate` at a concrete controller, state and
call times, covering both the gated call and the full-computation call. -/
theorem pid_min_sample_gate_witness :
    ((0 : ℚ) < 2 - 0 ∧ (2 : ℚ) - 0 < 5 ∧
      pidOutput (PIDParams.mk 50 1 0 0 0 100 5 0.9)
        (PIDState.mk (some 0) 3 7 1 0 0 0 0) 2 40 =
        ((PIDState.mk (some 0) 3 7 1 0 0 0 0).lastOutput,
          PIDState.mk (some 0) 3 7 1 0 0 0 0)) ∧
    ((5 : ℚ) ≤ 6 - 0 ∧
      pidOutput (PIDParams.mk 50 1 0 0 0 100 5 0.9)
        (PIDState.mk (some 0) 3 7 1 0 0 0 0) 6 40 =
        pidCompute (PIDParams.mk 50 1 0 0 0 100 5 0.9)
          (PIDState.mk (some 0) 3 7 1 0 0 0 0) 6 40 (6 - 0)) := by
  have h := pid_min_sample_gate (PIDParams.mk 50 1 0 0 0 100 5 0.9)
    (PIDState.mk (some 0) 3 7 1 0 0 0 0) 0 2 40 rfl
  have h2 := pid_min_sample_gate (PIDParams.mk 50 1 0 0 0 100 5 0.9)
    (PIDState.mk (some 0) 3 7 1 0 0 0 0) 0 6 40 rfl
  exact ⟨⟨by norm_num, by norm_num, h.1 (by norm_num) (by norm_num)⟩,
    ⟨by norm_num, h2.2 (by norm_num)⟩⟩

/-- Invariant carried by the PID proofs: once any tick has completed
(`lastTick` set), the stored `lastOutput` lies within the clamp bounds. -/
def pidStateInv (c : PIDParams) (s : PIDState) : Prop :=
  s.lastTick.isSome = true → c.minOutput ≤ s.lastOutput ∧ s.lastOutput ≤ c.maxOutput

lemma clamp_bounds (c : PIDParams) (h : c.minOutput ≤ c.maxOutput) (raw : ℚ) :
    c.minOutput ≤ (if raw > c.maxOutput then c.maxOutput
      else if raw < c.minOutput then c.minOutput else raw) ∧
    (if raw > c.maxOutput then c.maxOutput
      else if raw < c.minOutput then c.minOutput else raw) ≤ c.maxOutput := by
  split_ifs with h1 h2 <;> constructor <;> linarith

lemma pidCompute_bounds (c : PIDParams) (h : c.minOutput ≤ c.maxOutput)
    (s : PIDState) (now input elapsed : ℚ) :
    (c.minOutput ≤ (pidCompute c s now input elapsed).1 ∧
      (pidCompute c s now input elapsed).1 ≤ c.maxOutput) ∧
    pidStateInv c (pidCompute c s now input elapsed).2 := by
  have hb := clamp_bounds c h
    ((c.kp * (c.setpoint - (c.lowPassPole * s.lastInput + (1 - c.lowPassPole) * input))) +
      (s.integral + c.ki * (c.setpoint - (c.lowPassPole * s.lastInput +
        (1 - c.lowPassPole) * input)) * elapsed) +
      (if elapsed ≠ 0 then
        c.kd * -(((c.lowPassPole * s.lastInput + (1 - c.lowPassPole) * input) -
          s.lastInput) / elapsed)
      else 0))
  exact ⟨hb, fun _ => hb⟩

lemma pidOutput_bounds (c : PIDParams) (h : c.minOutput ≤ c.maxOutput)
    (s : PIDState) (hs : pidStateInv c s) (now input : ℚ) :
    (c.minOutput ≤ (pidOutput c s now input).1 ∧ (pidOutput c s now input).1 ≤ c.maxOutput) ∧
    pidStateInv c (pidOutput c s now input).2 := by
  unfold pidOutput
  cases htick : s.lastTick with
  | none => exact pidCompute_bounds c h s now input 0
  | some t0 =>
    simp only
    split
    · exact ⟨hs (by rw [htick]; rfl), hs⟩
    · exact pidCompute_bounds c h s now input (now - t0)

lemma runPID_bounds (c : PIDParams) (h : c.minOutput ≤ c.maxOutput)
    (calls : List (ℚ × ℚ)) (s : PIDState) (hs : pidStateInv c s) :
    (∀ y ∈ (runPID c s calls).2, c.minOutput ≤ y ∧ y ≤ c.maxOutput) ∧
    pidStateInv c (runPID c s calls).1 := by
  induction calls generalizing s with
  | nil => exact ⟨by simp [runPID], hs⟩
  | cons call rest ih =>
    rcases call with ⟨now, input⟩
    have hstep := pidOutput_bounds c h s hs now input
    have ihr := ih (pidOutput c s now input).2 hstep.2
    refine ⟨?_, ihr.2⟩
    intro y hy
    rw [runPID] at hy
    simp only [List.mem_cons] at hy
    rcases hy with hy | hy
    · rw [hy]; exact hstep.1
    · exact ihr.1 y hy

/-- C3: for every sequence of `Output` calls on a freshly constructed PID
controller, each returned value lies within the configured clamp bounds,
and the stored `lastOutput` after any completed tick lies within the clamp
bounds as well. -/
theorem pid_output_clamped (c : PIDParams) (calls : List (ℚ × ℚ))
    (h : c.minOutput ≤ c.maxOutput) :
    (∀ y ∈ (runPID c initialPIDState calls).2, c.minOutput ≤ y ∧ y ≤ c.maxOutput) ∧
    ((runPID c initialPIDState calls).1.lastTick.isSome = true →
      c.minOutput ≤ (runPID c initialPIDState calls).1.lastOutput ∧
      (runPID c initialPIDState calls).1.lastOutput ≤ c.maxOutput) :=
  runPID_bounds c h calls initialPIDState (fun hcontra => by
    simp [initialPIDState] at hcontra)

/-- C3 witness: `pid_output_clamped` at a concrete controller and call
sequence. -/
theorem pid_output_clamped_witness :
    ((0 : ℚ) ≤ 99) ∧
    (∀ y ∈ (runPID (PIDParams.mk 5 2 1 1 0 99 1 0.9) initialPIDState
      [(0, 10), (2, 20), (4, 1)]).2, (0 : ℚ) ≤ y ∧ y ≤ 99) :=
  ⟨by norm_num,
    (pid_output_clamped (PIDParams.mk 5 2 1 1 0 99 1 0.9)
      [(0, 10), (2, 20), (4, 1)] (by norm_num)).1⟩

/-- C1: for every request matched (or not) by the filter — with the random
draws in the range of `rand.Float64()` — the handler never sheds and always
forwards in `Disabled` mode; always responds `429 "Dimming!"` without
forwarding in `OfflineTraining` mode when the filter matches and the path's
stored probability is 1.0; and never sheds in `Dimming` mode when the
current dimming percentage is 0. -/
theorem requestHandler_shed_decision :
    (∀ (s : ServerState) (req : RequestInfo) (draws : HandlerDraws),
      s.dimmingMode = DimmingMode.Disabled →
        requestHandler s req draws = HandlerResult.forwarded) ∧
    (∀ (s : ServerState) (req : RequestInfo) (draws : HandlerDraws),
      s.dimmingMode = DimmingMode.OfflineTraining →
      s.requestFilter.Matches req.path req.method req.referer = true →
      s.pathProbabilities.Get req.path = 1 →
      draws.pathProbabilityRoll < 1 →
        requestHandler s req draws = HandlerResult.shed 429 "Dimming!") ∧
    (∀ (s : ServerState) (req : RequestInfo) (draws : HandlerDraws),
      s.dimmingMode = DimmingMode.Dimming →
      s.dimmingPercentage = 0 →
      0 ≤ draws.baselineRoll →
        requestHandler s req draws = HandlerResult.forwarded) := by
  refine ⟨fun s req draws hmode => ?_, fun s req draws hmode hmatch hget hroll => ?_,
    fun s req draws hmode hpct hroll => ?_⟩
  · simp [requestHandler, hmode]
  · simp [requestHandler, hmode, hmatch, PathProbabilities.SampleShouldDim, hget, hroll]
  · have hnot : ¬(draws.baselineRoll * 100 < s.dimmingPercentage) := by
      rw [hpct]
      push_neg
      positivity
    by_cases hmatch : s.requestFilter.Matches req.path req.method req.referer = true
    · simp [requestHandler, hmode, hmatch, hnot]
    · rw [Bool.not_eq_true] at hmatch
      simp [requestHandler, hmatch]

/-- C1 witness: `requestHandler_shed_decision` at concrete server states,
requests and random draws, one per mode in the claim. -/
theorem requestHandler_shed_decision_witness :
    (requestHandler
      (ServerState.mk DimmingMode.Disabled
        (buildFilter [FilterOp.addPath "p".toList "GET".toList])
        (applySets (emptyPathProbabilities 0) [PathProbabilityRule.mk "p".toList 1])
        (emptyPathProbabilities 0) 50 false)
      (RequestInfo.mk "/p".toList "GET".toList [] [] [] [] [])
      (HandlerDraws.mk 0 false 0) = HandlerResult.forwarded) ∧
    ((buildFilter [FilterOp.addPath "p".toList "GET".toList]).Matches
        "/p".toList "GET".toList [] = true ∧
      (applySets (emptyPathProbabilities 0)
        [PathProbabilityRule.mk "p".toList 1]).Get "/p".toList = 1 ∧
      (0 : ℚ) < 1 ∧
      requestHandler
        (ServerState.mk DimmingMode.OfflineTraining
          (buildFilter [FilterOp.addPath "p".toList "GET".toList])
          (applySets (emptyPathProbabilities 0) [PathProbabilityRule.mk "p".toList 1])
          (emptyPathProbabilities 0) 50 false)
        (RequestInfo.mk "/p".toList "GET".toList [] [] [] [] [])
        (HandlerDraws.mk 0 false 0) = HandlerResult.shed 429 "Dimming!") ∧
    ((0 : ℚ) ≤ 0 ∧
      requestHandler
        (ServerState.mk DimmingMode.Dimming
          (buildFilter [FilterOp.addPath "p".toList "GET".toList])
          (applySets (emptyPathProbabilities 0) [PathProbabilityRule.mk "p".toList 1])
          (emptyPathProbabilities 0) 0 false)
        (RequestInfo.mk "/p".toList "GET".toList [] [] [] [] [])
        (HandlerDraws.mk 0 false 0) = HandlerResult.forwarded) := by
  refine ⟨?_, ⟨by decide, by decide, by norm_num, ?_⟩, ⟨le_refl 0, ?_⟩⟩
  · exact requestHandler_shed_decision.1 _ _ _ rfl
  · exact requestHandler_shed_decision.2.1 _ _ _ rfl (by decide) (by decide) (by norm_num)
  · exact requestHandler_shed_decision.2.2 _ _ _ rfl rfl (le_refl 0)

lemma maxQ_eq_max (a b : ℚ) : maxQ a b = max a b := by
  rw [maxQ, max_def]

lemma absQ_eq_abs (q : ℚ) : absQ q = |q| := by
  unfold absQ
  split_ifs with h
  · exact (abs_of_neg h).symm
  · exact (abs_of_nonneg (not_lt.mp h)).symm

lemma listMax_nonneg (l : List ℚ) : 0 ≤ listMax l := by
  induction l with
  | nil => exact le_refl 0
  | cons a t ih =>
    show 0 ≤ maxQ a (listMax t)
    rw [maxQ_eq_max]
    exact le_trans ih (le_max_right a (listMax t))

lemma listMax_append (l1 l2 : List ℚ) :
    listMax (l1 ++ l2) = max (listMax l1) (listMax l2) := by
  induction l1 with
  | nil =>
    rw [List.nil_append]
    exact (max_eq_right (listMax_nonneg l2)).symm
  | cons a t ih =>
    show maxQ a (listMax (t ++ l2)) = max (maxQ a (listMax t)) (listMax l2)
    rw [maxQ_eq_max, maxQ_eq_max, ih, max_assoc]

lemma ksStatistic_symm (A B : List ℚ) : ksStatistic A B = ksStatistic B A := by
  unfold ksStatistic
  have hfun : (fun x => absQ (empiricalCDF B x - empiricalCDF A x)) =
      (fun x => absQ (empiricalCDF A x - empiricalCDF B x)) := by
    funext x
    rw [absQ_eq_abs, absQ_eq_abs, abs_sub_comm]
  rw [List.map_append, List.map_append, listMax_append, listMax_append, hfun, max_comm]

/-- C8: swapping the two samples never changes the verdict of
`KolmogorovSmirnovTestRejection` — both the critical value and the
maximum-CDF-difference statistic are symmetric in the two samples. -/
theorem ks_rejection_symmetric (A B : List ℚ) (percentile : Percentile)
    (hA : A ≠ []) (hB : B ≠ []) :
    KolmogorovSmirnovTestRejection A B percentile ↔
      KolmogorovSmirnovTestRejection B A percentile := by
  unfold KolmogorovSmirnovTestRejection
  rw [ksStatistic_symm A B, add_comm ((A.length : ℝ)) ((B.length : ℝ)),
    mul_comm ((A.length : ℝ)) ((B.length : ℝ))]

/-- C8 witness: `ks_rejection_symmetric` at concrete non-empty samples. -/
theorem ks_rejection_symmetric_witness :
    (([0] : List ℚ) ≠ [] ∧ ([1] : List ℚ) ≠ []) ∧
    (KolmogorovSmirnovTestRejection [0] [1] Percentile.P95 ↔
      KolmogorovSmirnovTestRejection [1] [0] Percentile.P95) :=
  ⟨⟨by decide, by decide⟩,
    ks_rejection_symmetric [0] [1] Percentile.P95 (by decide) (by decide)⟩

set_option maxRecDepth 100000 in
lemma ksStatistic_eight : ksStatistic (List.replicate 8 (0 : ℚ)) (List.replicate 8 (1 : ℚ)) = 1 := by
  show ksStatistic [0, 0, 0, 0, 0, 0, 0, 0] [1, 1, 1, 1, 1, 1, 1, 1] = 1
  norm_num [ksStatistic, listMax, empiricalCDF, maxQ, absQ, List.countP_cons, List.countP_nil]

lemma ks_reject_eight :
    KolmogorovSmirnovTestRejection (List.replicate 8 (0 : ℚ)) (List.replicate 8 (1 : ℚ))
      Percentile.P99d5 := by
  unfold KolmogorovSmirnovTestRejection
  rw [ksStatistic_eight]
  simp only [List.length_replicate, coefficients]
  push_cast
  rw [show ((8 : ℝ) + 8) / (8 * 8) = (1 / 2) ^ 2 by norm_num, Real.sqrt_sq (by norm_num)]
  norm_num

/-- C2 counterexample: at `controlP95 = 1` and `candidateP95 = 0.85` — the
exact 15 % improvement boundary, which the claim counts as a promotion —
with samples on which the KS test at the 99.5-percentile critical value
rejects, all three conditions of the claim hold, yet
`checkCandidateImprovesResponseTimes` is false, so the trainer does not
promote. -/
theorem onlineTraining_promotion_boundary_counterexample :
    ((17 / 20 : ℚ) > 0.05 ∧ (17 / 20 : ℚ) ≤ 0.85 * 1 ∧
      KolmogorovSmirnovTestRejection (List.replicate 8 (0 : ℚ)) (List.replicate 8 (1 : ℚ))
        Percentile.P99d5) ∧
    ¬ checkCandidateImprovesResponseTimes 1 (17 / 20)
        (List.replicate 8 (0 : ℚ)) (List.replicate 8 (1 : ℚ)) := by
  refine ⟨⟨by norm_num, by norm_num, ks_reject_eight⟩, ?_⟩
  unfold checkCandidateImprovesResponseTimes
  rw [if_pos (by norm_num), if_pos (by norm_num)]
  exact not_false

/-- C2 (amended): the online trainer promotes the candidate probabilities
into the live path probabilities iff `candidateP95 > 0.05`,
`candidateP95 < 0.85 · controlP95` (strictly more than the 15 % improvement
boundary) and the KS test at the 99.5-percentile critical value rejects;
otherwise the live probabilities are left unchanged.  `comparison` is the
Boolean result of `checkCandidateImprovesResponseTimes` used by
`trainingLoop`. -/
theorem onlineTraining_promotion_iff_strict (live : PathProbabilities)
    (rules : List PathProbabilityRule) (controlP95 candidateP95 : ℚ)
    (controlAll candidateAll : List ℚ) (comparison : Bool)
    (h : comparison = true ↔
      checkCandidateImprovesResponseTimes controlP95 candidateP95 controlAll candidateAll) :
    (comparison = true ↔
      (candidateP95 > 0.05 ∧ candidateP95 < 0.85 * controlP95 ∧
        KolmogorovSmirnovTestRejection controlAll candidateAll Percentile.P99d5)) ∧
    (comparison = true →
      trainingLoopPromotionStep live rules comparison = (live.SetAll rules).1) ∧
    (comparison = false → trainingLoopPromotionStep live rules comparison = live) := by
  refine ⟨?_, fun hc => by simp [trainingLoopPromotionStep, hc],
    fun hc => by simp [trainingLoopPromotionStep, hc]⟩
  rw [h]
  unfold checkCandidateImprovesResponseTimes
  split_ifs with h1 h2
  · simp only [false_iff]
    rintro ⟨_, hlt, _⟩
    linarith
  · have h3 := not_le.mp h2
    constructor
    · intro hks
      exact ⟨h1, h3, hks⟩
    · rintro ⟨_, _, hks⟩
      exact hks
  · simp only [false_iff]
    rintro ⟨hgt, _, _⟩
    exact h1 hgt

/-- C2 witness: `onlineTraining_promotion_iff_strict` at a concrete
evaluation whose check is false, showing the live probabilities unchanged. -/
theorem onlineTraining_promotion_iff_strict_witness :
    ((false = true) ↔ checkCandidateImprovesResponseTimes 1 0 [] []) ∧
    trainingLoopPromotionStep (emptyPathProbabilities 0) [] false =
      emptyPathProbabilities 0 := by
  have hiff : ((false = true) ↔ checkCandidateImprovesResponseTimes 1 0 [] []) := by
    unfold checkCandidateImprovesResponseTimes
    rw [if_neg (by norm_num)]
    simp
  exact ⟨hiff,
    (onlineTraining_promotion_iff_strict (emptyPathProbabilities 0) [] 1 0 [] [] false
      hiff).2.2 rfl⟩

end Dimmer
